import Mathlib

/-!
Verification of the orchestration logic of `run_sql_script.py`
(Data Warehouse Lab — SQL query execution script).

The script is sequential glue: argument validation, CSV loading into an
embedded engine, query execution, result preview logging and CSV
persistence.  We embed each helper function as a pure Lean function over
explicit oracles for the external effects (filesystem existence checks,
`pandas.read_csv` outcomes, the DuckDB engine, the CSV writer), and the
`main` orchestrator as a function from those oracles to an observable
run outcome (exit code, whether a result file was written, connection
open/close counts, which stages were reached).

Strings are modelled by Lean `String` (a list of characters), matching
Python `str` for the ASCII paths involved.
-/

/-! ### Character-list helpers mirroring Python string primitives -/

/-- Python `s.startswith(pre)` on character lists: the first
`pre.length` characters equal `pre`. -/
def startsWithList (l pre : List Char) : Bool :=
  decide (l.take pre.length = pre)

/-- Python `s.endswith(suf)` on character lists: the last
`suf.length` characters equal `suf`. -/
def endsWithList (l suf : List Char) : Bool :=
  decide (l.reverse.take suf.length = suf.reverse)

/-- Python `s.lower()` (ASCII case folding, which is all the script uses). -/
def pyLower (s : String) : String :=
  ⟨s.data.map Char.toLower⟩

/-- The check s.lower().endswith(suf) as used by the script, where suf is
a lowercase literal such as .sql or .csv. -/
def lowerEndsWith (s suf : String) : Bool :=
  endsWithList (pyLower s).data suf.data

/-- Characters removed by Python `str.strip()` (the ASCII whitespace set;
the paths and queries involved are ASCII). -/
def isPySpace (c : Char) : Bool :=
  c == ' ' || c == '\t' || c == '\n' || c == '\r' ||
    c == Char.ofNat 11 || c == Char.ofNat 12

/-- Python `s.strip()`: remove leading and trailing whitespace. -/
def pyStrip (s : String) : String :=
  ⟨((s.data.dropWhile isPySpace).reverse.dropWhile isPySpace).reverse⟩

/-! ### Path primitives from os.path

os.path.basename keeps everything after the last separator;
os.path.splitext splits a trailing extension off, except that the
leading dots of the basename never start an extension: splitext of
.sql is (.sql, empty) while splitext of a.b.sql is (a.b, .sql).
The script only ever uses the first component of splitext, so we embed
exactly that component. -/

/-- Python os.path.basename: the part of the path after the last slash
(the whole path if there is no separator). -/
def baseNameList (l : List Char) : List Char :=
  (l.reverse.takeWhile (fun c => c != '/')).reverse

/-- The directory part of a path, up to and including the last slash
(empty if there is no separator).  `baseNameList` and `dirPartList`
partition the path. -/
def dirPartList (l : List Char) : List Char :=
  (l.reverse.dropWhile (fun c => c != '/')).reverse

/-- The root component of `os.path.splitext` restricted to a basename
(no separators): skip the leading dots, and if a dot remains, cut at the
last dot; otherwise there is no extension. -/
def extSplitRoot (b : List Char) : List Char :=
  let lead := b.takeWhile (fun c => c == '.')
  let rest := b.dropWhile (fun c => c == '.')
  if '.' ∈ rest then
    lead ++ ((rest.reverse.dropWhile (fun c => c != '.')).drop 1).reverse
  else b

/-- Python os.path.splitext applied to a full path, first component:
the directory part unchanged, the basename with its extension removed. -/
def splitextRootL (l : List Char) : List Char :=
  dirPartList l ++ extSplitRoot (baseNameList l)

/-- String wrapper for the first component of os.path.splitext. -/
def strSplitextRoot (s : String) : String :=
  ⟨splitextRootL s.data⟩

/-! ### Output-path derivation from save_results_to_csv, lines 192 to 202

The source:  if the SQL file path starts with the literal queries/ then
drop those 8 characters, take the splitext root of the remainder, and
build outputs/ ++ root ++ _output.csv; otherwise take the splitext root
of the basename and build the same shape. -/

/-- The output CSV path derived from the SQL file path. -/
def save_output_path (p : String) : String :=
  if startsWithList p.data ("queries/").data then
    ⟨("outputs/").data ++ splitextRootL (p.data.drop 8) ++ ("_output.csv").data⟩
  else
    ⟨("outputs/").data ++ splitextRootL (baseNameList p.data) ++ ("_output.csv").data⟩

/-! ### List lemmas used to reason about `takeWhile`/`dropWhile` splits -/

theorem takeWhile_append_all {p : Char → Bool} (l₁ l₂ : List Char)
    (h : ∀ a ∈ l₁, p a = true) :
    (l₁ ++ l₂).takeWhile p = l₁ ++ l₂.takeWhile p := by
  induction l₁ with
  | nil => simp
  | cons a t ih =>
    have ha : p a = true := h a (by simp)
    simp [List.takeWhile_cons, ha]
    exact ih fun x hx => h x (by simp [hx])

theorem dropWhile_append_all {p : Char → Bool} (l₁ l₂ : List Char)
    (h : ∀ a ∈ l₁, p a = true) :
    (l₁ ++ l₂).dropWhile p = l₂.dropWhile p := by
  induction l₁ with
  | nil => simp
  | cons a t ih =>
    have ha : p a = true := h a (by simp)
    simp [List.dropWhile_cons, ha]
    exact ih fun x hx => h x (by simp [hx])

theorem takeWhile_append_stop {p : Char → Bool} (l₁ l₂ : List Char)
    (h : l₁.dropWhile p ≠ []) :
    (l₁ ++ l₂).takeWhile p = l₁.takeWhile p := by
  induction l₁ with
  | nil => simp at h
  | cons a t ih =>
    cases ha : p a with
    | true =>
      have h' : t.dropWhile p ≠ [] := by
        simpa [List.dropWhile_cons, ha] using h
      simp [List.takeWhile_cons, ha, ih h']
    | false => simp [List.takeWhile_cons, ha]

theorem dropWhile_append_stop {p : Char → Bool} (l₁ l₂ : List Char)
    (h : l₁.dropWhile p ≠ []) :
    (l₁ ++ l₂).dropWhile p = l₁.dropWhile p ++ l₂ := by
  induction l₁ with
  | nil => simp at h
  | cons a t ih =>
    cases ha : p a with
    | true =>
      have h' : t.dropWhile p ≠ [] := by
        simpa [List.dropWhile_cons, ha] using h
      simp [List.dropWhile_cons, ha, ih h']
    | false => simp [List.dropWhile_cons, ha]

theorem dropWhile_eq_nil_of_all {p : Char → Bool} (l : List Char)
    (h : ∀ a ∈ l, p a = true) : l.dropWhile p = [] := by
  simpa using h

theorem takeWhile_eq_self_of_all {p : Char → Bool} (l : List Char)
    (h : ∀ a ∈ l, p a = true) : l.takeWhile p = l := by
  simpa using h

theorem any_ne_dot_iff_dropWhile (l : List Char) :
    l.any (fun c => c != '.') = true ↔
      l.dropWhile (fun c => c == '.') ≠ [] := by
  induction l with
  | nil => simp
  | cons a t ih =>
    cases ha : (a == '.') with
    | true =>
      have ha' : (a != '.') = false := by simp [bne, ha]
      simp [List.any_cons, List.dropWhile_cons, ha, ha', ih]
    | false =>
      have ha' : (a != '.') = true := by simp [bne, ha]
      simp [List.any_cons, List.dropWhile_cons, ha, ha']

/-! ### Behaviour of `baseNameList`, `dirPartList`, `extSplitRoot` -/

theorem baseNameList_append (d n : List Char)
    (hn : ∀ c ∈ n, (c != '/') = true) :
    baseNameList (d ++ '/' :: n) = n := by
  unfold baseNameList
  rw [List.reverse_append, List.reverse_cons]
  rw [List.append_assoc]
  rw [takeWhile_append_all _ _ (fun a ha => hn a (List.mem_reverse.mp ha))]
  have : (('/' : Char) != '/') = false := by decide
  simp [List.takeWhile_cons, this]

theorem dirPartList_append (d n : List Char)
    (hn : ∀ c ∈ n, (c != '/') = true) :
    dirPartList (d ++ '/' :: n) = d ++ ['/'] := by
  unfold dirPartList
  rw [List.reverse_append, List.reverse_cons]
  rw [List.append_assoc]
  rw [dropWhile_append_all _ _ (fun a ha => hn a (List.mem_reverse.mp ha))]
  have : (('/' : Char) != '/') = false := by decide
  simp [List.dropWhile_cons, this]

theorem baseNameList_no_sep (l : List Char)
    (h : ∀ c ∈ l, (c != '/') = true) :
    baseNameList l = l := by
  unfold baseNameList
  rw [takeWhile_eq_self_of_all _ (fun a ha => h a (List.mem_reverse.mp ha))]
  simp

theorem dirPartList_no_sep (l : List Char)
    (h : ∀ c ∈ l, (c != '/') = true) :
    dirPartList l = [] := by
  unfold dirPartList
  rw [dropWhile_eq_nil_of_all _ (fun a ha => h a (List.mem_reverse.mp ha))]
  simp

theorem mem_baseNameList_ne_sep (l : List Char) :
    ∀ c ∈ baseNameList l, (c != '/') = true := by
  intro c hc
  unfold baseNameList at hc
  rw [List.mem_reverse] at hc
  have h2 := List.mem_takeWhile_imp hc
  simpa using h2

/-- The heart of the `splitext` behaviour: on a basename of the shape
`n ++ "." ++ r` where `n` contains a non-dot character and `r` is
dot-free, the extension `"." ++ r` is stripped, leaving `n`. -/
theorem extSplitRoot_append (n r : List Char)
    (hnd : n.dropWhile (fun c => c == '.') ≠ [])
    (hr : ∀ c ∈ r, (c != '.') = true) :
    extSplitRoot (n ++ '.' :: r) = n := by
  unfold extSplitRoot
  rw [takeWhile_append_stop _ _ hnd, dropWhile_append_stop _ _ hnd]
  have hmem : '.' ∈ n.dropWhile (fun c => c == '.') ++ '.' :: r := by
    simp
  rw [if_pos hmem]
  rw [List.reverse_append, List.reverse_cons, List.append_assoc]
  rw [dropWhile_append_all _ _ (fun a ha => hr a (List.mem_reverse.mp ha))]
  have hdot : (('.' : Char) != '.') = false := by decide
  rw [List.singleton_append, List.dropWhile_cons]
  simp only [hdot, Bool.false_eq_true, if_false]
  simp only [List.drop_one, List.tail_cons, List.reverse_reverse]
  exact List.takeWhile_append_dropWhile _ _

/-! ### Data model

A tabular dataset (pandas `DataFrame` as far as this script observes it):
a column schema and a list of rows of rendered cells. -/

structure Df where
  cols : List String
  rows : List (List String)
deriving DecidableEq

/-- One entry of `os.listdir(data_folder_path)` together with the outcome
of `pd.read_csv` on it: `some df` when the file parses, `none` when
reading raises (malformed/unreadable file). -/
structure CsvFile where
  name : String
  parse : Option Df
deriving DecidableEq

/-- The engine's table catalog: registered name to dataset. -/
def Catalog : Type := String → Option Df

def emptyCatalog : Catalog := fun _ => none

/-- Embedding of conn.register(table_name, df): registering an already-used name
replaces the earlier registration (DuckDB replaces the named view). -/
def register (n : String) (df : Df) (c : Catalog) : Catalog :=
  fun x => if x = n then some df else c x

/-- The filesystem oracle backing `os.path.exists` / `os.path.isdir`. -/
structure FS where
  pathExists : String → Bool
  isDir : String → Bool

/-! ### `validate_arguments` (lines 49–80)

Each failing check prints one diagnostic to the console and returns
`False`; we record the diagnostics as an explicit list. -/

/-- The console diagnostics `validate_arguments` can print. -/
inductive ArgDiag where
  | sqlFileMissing (p : String)
  | notSqlFile (p : String)
  | dataFolderMissing (p : String)
  | notADirectory (p : String)
deriving DecidableEq

/-- Embedding of validate_arguments(sql_file_path, data_folder_path, log_file_path):
result flag together with the diagnostics printed. -/
def validate_arguments (fs : FS) (sql_file_path data_folder_path log_file_path : String) :
    Bool × List ArgDiag :=
  if fs.pathExists sql_file_path = false then
    (false, [ArgDiag.sqlFileMissing sql_file_path])
  else if lowerEndsWith sql_file_path ".sql" = false then
    (false, [ArgDiag.notSqlFile sql_file_path])
  else if fs.pathExists data_folder_path = false then
    (false, [ArgDiag.dataFolderMissing data_folder_path])
  else if fs.isDir data_folder_path = false then
    (false, [ArgDiag.notADirectory data_folder_path])
  else
    (true, [])

/-! ### `load_csv_files` (lines 83–126) -/

/-- The filter on directory entries: file.lower().endswith(.csv). -/
def matchesCsv (f : CsvFile) : Bool :=
  lowerEndsWith f.name ".csv"

/-- The registered table name, the splitext root of the file name. -/
def tableName (fname : String) : String :=
  strSplitextRoot fname

/-- The body of the per-file loop: a parsed file is registered and its
table name appended to `loaded_tables`; a failing file is caught,
logged and skipped. -/
def loadStep (acc : List String × Catalog) (f : CsvFile) : List String × Catalog :=
  match f.parse with
  | some df => (acc.1 ++ [tableName f.name], register (tableName f.name) df acc.2)
  | none => acc

/-- Result of `load_csv_files`: the returned `loaded_tables` list, the
catalog mutated on the connection, and whether the no-CSV-files warning
was logged. -/
structure LoadOut where
  tables : List String
  catalog : Catalog
  warnedNoFiles : Bool

/-- Embedding of load_csv_files(data_folder_path, conn), with the folder listing
(and per-file read outcomes) supplied as `files`. -/
def load_csv_files (files : List CsvFile) : LoadOut :=
  let csv_files := files.filter matchesCsv
  if csv_files = [] then
    ⟨[], emptyCatalog, true⟩
  else
    let r := csv_files.foldl loadStep ([], emptyCatalog)
    ⟨r.1, r.2, false⟩

/-! ### `read_sql_file` (lines 129–152)

`content` is the outcome of `open(...).read()`: `none` when reading
raises (caught and turned into a `None` return), `some s` otherwise. -/

def read_sql_file (content : Option String) : Option String :=
  match content with
  | none => none
  | some s =>
    let sql_query := pyStrip s
    if sql_query = "" then none else some sql_query

/-! ### `execute_sql_query` (lines 155–178)

The engine (`conn.execute(q).df()`) is an oracle from query text to
`some result` or `none` when it raises; the `except` block turns any
raise into a `None` return. -/

def execute_sql_query (engine : String → Option Df) (sql_query : String) : Option Df :=
  engine sql_query

/-! ### `save_results_to_csv` (lines 181–217)

Path derivation is `save_output_path`; `saveOk` is the oracle for the
`makedirs`/`to_csv` I/O succeeding.  Any raise is caught and turned into
a `None` return. -/

def save_results_to_csv (saveOk : Bool) (result_df : Df) (sql_file_path : String) :
    Option String :=
  if saveOk then some (save_output_path sql_file_path) else none

/-! ### `log_results_preview` (lines 220–248) -/

/-- The log entries emitted by `log_results_preview`, in order. -/
inductive PreviewEntry where
  | header (shown : Nat)
  | noRows
  | columns (cs : List String)
  | blank
  | rows (rs : List (List String))
  | omitted (k : Nat)
  | rule
deriving DecidableEq

/-- Embedding of log_results_preview(result_df, max_rows): the sequence of log
entries produced. -/
def log_results_preview (result_df : Df) (max_rows : Nat) : List PreviewEntry :=
  let hd := PreviewEntry.header (min max_rows result_df.rows.length)
  if result_df.rows.length = 0 then
    [hd, PreviewEntry.noRows]
  else
    [hd, PreviewEntry.columns result_df.cols, PreviewEntry.blank,
      PreviewEntry.rows (result_df.rows.take max_rows)]
    ++ (if max_rows < result_df.rows.length then
          [PreviewEntry.omitted (result_df.rows.length - max_rows)]
        else [])
    ++ [PreviewEntry.rule]

/-- The row cap `main` uses (the default value of `max_rows`). -/
def previewDefaultRows : Nat := 10

/-! ### The orchestrator `main` (lines 251–339)

All external effects are oracles in `Env`:
* `argv` — `sys.argv` (program name plus arguments);
* `fs` — filesystem existence checks used by `validate_arguments`;
* `dataFiles` — `os.listdir(data_folder_path)` with each file's
  `pd.read_csv` outcome;
* `sqlContent` — the outcome of reading the SQL file;
* `engine` — `conn.execute(q).df()` as a function of the query text;
* `connectOk` — whether `duckdb.connect` succeeds;
* `unexpectedFault` — whether an unanticipated exception is raised
  inside the `try` block after the connection was opened (the
  `except Exception` branch);
* `saveOk` — whether the output-directory creation and `to_csv` succeed.
-/

structure Env where
  argv : List String
  fs : FS
  dataFiles : List CsvFile
  sqlContent : Option String
  engine : String → Option Df
  connectOk : Bool
  unexpectedFault : Bool
  saveOk : Bool

/-- What the `try` block produces before the `finally` clause runs:
exit code, whether a result file was written, whether the connection was
opened, and which stages were reached. -/
structure TryOut where
  exitCode : Nat
  wroteResult : Bool
  connOpened : Bool
  proceedToQuery : Bool
  queryExecuted : Bool

/-- The observable outcome of one run of `main`. -/
structure RunResult where
  exitCode : Nat
  wroteResult : Bool
  connOpened : Bool
  connClosed : Nat
  proceedToQuery : Bool
  queryExecuted : Bool

/-- The body of `main`'s `try` block (lines 284–329).  Each `sys.exit(1)`
raises `SystemExit`, which the `except Exception` clause does not catch,
so every abort path falls through to `finally`. -/
def tryBody (env : Env) (sql_file_path : String) : TryOut :=
  if env.connectOk = false then
    -- `duckdb.connect` raised: caught by `except Exception`, exit 1,
    -- `conn` never entered `locals()`.
    ⟨1, false, false, false, false⟩
  else if env.unexpectedFault = true then
    -- unanticipated exception after the connection opened:
    -- logged, reported to console, exit 1.
    ⟨1, false, true, false, false⟩
  else
    let loaded := load_csv_files env.dataFiles
    if loaded.tables = [] then
      ⟨1, false, true, false, false⟩
    else
      match read_sql_file env.sqlContent with
      | none => ⟨1, false, true, true, false⟩
      | some sql_query =>
        match execute_sql_query env.engine sql_query with
        | none => ⟨1, false, true, true, true⟩
        | some result_df =>
          -- `log_results_preview(result_df)` runs here (pure logging).
          match save_results_to_csv env.saveOk result_df sql_file_path with
          | none => ⟨1, false, true, true, true⟩
          | some _ => ⟨0, true, true, true, true⟩

/-- The `finally` clause (lines 331 to 335): it closes the connection
exactly when the connection name entered the local scope. -/
def finalizeConn (t : TryOut) : RunResult :=
  ⟨t.exitCode, t.wroteResult, t.connOpened,
    if t.connOpened then 1 else 0, t.proceedToQuery, t.queryExecuted⟩

/-- Embedding of main(): argument-count check, validation, then the
`try`/`except`/`finally` block. -/
def mainRun (env : Env) : RunResult :=
  match env.argv with
  | [_, sql_file_path, data_folder_path, log_file_path] =>
    if (validate_arguments env.fs sql_file_path data_folder_path log_file_path).1 then
      finalizeConn (tryBody env sql_file_path)
    else
      ⟨1, false, false, 0, false, false⟩
  | _ => ⟨1, false, false, 0, false, false⟩

/-! ### Helper lemmas -/

theorem strDataEq {a b : String} (h : a.data = b.data) : a = b := by
  cases a
  cases b
  exact congrArg String.mk (by simpa using h)

theorem strData_append (a b : String) : (a ++ b).data = a.data ++ b.data := by
  cases a
  cases b
  rfl

theorem loadFold_fst (l : List CsvFile) :
    ∀ (acc : List String) (cat : Catalog),
      (l.foldl loadStep (acc, cat)).1 =
        acc ++ (l.filter (fun f => f.parse.isSome)).map (fun f => tableName f.name) := by
  induction l with
  | nil => intro acc cat; simp
  | cons f t ih =>
    intro acc cat
    cases hp : f.parse with
    | none =>
      rw [List.foldl_cons]
      have hstep : loadStep (acc, cat) f = (acc, cat) := by
        simp [loadStep, hp]
      rw [hstep, ih]
      simp [List.filter_cons, hp]
    | some df =>
      rw [List.foldl_cons]
      have hstep : loadStep (acc, cat) f =
          (acc ++ [tableName f.name], register (tableName f.name) df cat) := by
        simp [loadStep, hp]
      rw [hstep, ih]
      simp [List.filter_cons, hp]

theorem length_filter_parse (l : List CsvFile) :
    (l.filter (fun f => f.parse.isSome)).length +
      (l.filter (fun f => f.parse.isNone)).length = l.length := by
  induction l with
  | nil => rfl
  | cons f t ih =>
    cases hp : f.parse with
    | none =>
      simp only [List.filter_cons, hp, Option.isSome_none, Option.isNone_none,
        Bool.false_eq_true, if_false, if_true, List.length_cons]
      omega
    | some df =>
      simp only [List.filter_cons, hp, Option.isSome_some, Option.isNone_some,
        Bool.false_eq_true, if_false, if_true, List.length_cons]
      omega

theorem load_csv_files_tables (files : List CsvFile)
    (hne : files.filter matchesCsv ≠ []) :
    (load_csv_files files).tables =
      ((files.filter matchesCsv).filter (fun f => f.parse.isSome)).map
        (fun f => tableName f.name) := by
  unfold load_csv_files
  rw [if_neg hne]
  show (List.foldl loadStep ([], emptyCatalog) (files.filter matchesCsv)).1 = _
  rw [loadFold_fst]
  simp

theorem mainRun_eq (env : Env) (a qp dp lp : String)
    (hargv : env.argv = [a, qp, dp, lp])
    (hval : (validate_arguments env.fs qp dp lp).1 = true) :
    mainRun env = finalizeConn (tryBody env qp) := by
  simp [mainRun, hargv, hval]

theorem tryBody_normal (env : Env) (qp : String)
    (hconn : env.connectOk = true) (hunex : env.unexpectedFault = false)
    (hne : (load_csv_files env.dataFiles).tables ≠ []) :
    tryBody env qp =
      match read_sql_file env.sqlContent with
      | none => ⟨1, false, true, true, false⟩
      | some q =>
        match env.engine q with
        | none => ⟨1, false, true, true, true⟩
        | some df =>
          match save_results_to_csv env.saveOk df qp with
          | none => ⟨1, false, true, true, true⟩
          | some _ => ⟨0, true, true, true, true⟩ := by
  simp [tryBody, hconn, hunex, hne, execute_sql_query]

/-! ### The claims -/

/-- C8: On every exit path of the orchestrator on which a query-engine
connection was opened — success, any staged abort, and the
unexpected-fault branch — the connection is closed exactly once before
the process terminates; the connection is never closed twice and never
left open. -/
theorem claim_C8_connection_closed_once (env : Env) :
    (mainRun env).connClosed = (if (mainRun env).connOpened then 1 else 0)
      ∧ (mainRun env).connClosed ≤ 1 := by
  have h : (mainRun env).connClosed = (if (mainRun env).connOpened then 1 else 0) := by
    unfold mainRun
    split
    · split
      · rfl
      · rfl
    · rfl
  refine ⟨h, ?_⟩
  rw [h]
  split <;> simp

/-- C9: The argument validator never inspects its third argument: for
any fixed query-file and data-folder paths, and any two log-file path
strings (and any two filesystems agreeing on the two inspected paths),
`validate_arguments` returns the same flag and prints the same
diagnostics; the log-file path is never checked for existence. -/
theorem claim_C9_log_path_not_inspected
    (fs fs2 : FS) (qp dp lp1 lp2 : String)
    (h1 : fs.pathExists qp = fs2.pathExists qp)
    (h2 : fs.pathExists dp = fs2.pathExists dp)
    (h3 : fs.isDir dp = fs2.isDir dp) :
    validate_arguments fs qp dp lp1 = validate_arguments fs2 qp dp lp2 := by
  unfold validate_arguments
  rw [h1, h2, h3]

theorem claim_C9_log_path_not_inspected_witness :
    validate_arguments ⟨fun _ => true, fun _ => true⟩ "q.sql" "data" "logA.txt" =
      validate_arguments ⟨fun _ => true, fun _ => true⟩ "q.sql" "data" "logB.txt" :=
  claim_C9_log_path_not_inspected ⟨fun _ => true, fun _ => true⟩
    ⟨fun _ => true, fun _ => true⟩ "q.sql" "data" "logA.txt" "logB.txt" rfl rfl rfl

/-- C4: Argument validation succeeds iff the query file exists, its name
ends in the suffix .sql compared case-insensitively, the data folder
exists, and the data folder is a directory; on any of these failures it
prints exactly one diagnostic to the console and returns failure, and
the orchestrator exits with status 1. -/
theorem claim_C4_validate_iff (fs : FS) (qp dp lp : String) :
    ((validate_arguments fs qp dp lp).1 = true ↔
        (fs.pathExists qp = true ∧ lowerEndsWith qp ".sql" = true ∧
          fs.pathExists dp = true ∧ fs.isDir dp = true))
    ∧ ((validate_arguments fs qp dp lp).1 = false →
        (validate_arguments fs qp dp lp).2.length = 1)
    ∧ (∀ (env : Env) (a : String), env.argv = [a, qp, dp, lp] → env.fs = fs →
        (validate_arguments fs qp dp lp).1 = false →
        (mainRun env).exitCode = 1) := by
  refine ⟨?_, ?_, ?_⟩
  · cases h1 : fs.pathExists qp <;> cases h2 : lowerEndsWith qp ".sql" <;>
      cases h3 : fs.pathExists dp <;> cases h4 : fs.isDir dp <;>
      simp [validate_arguments, h1, h2, h3, h4]
  · cases h1 : fs.pathExists qp <;> cases h2 : lowerEndsWith qp ".sql" <;>
      cases h3 : fs.pathExists dp <;> cases h4 : fs.isDir dp <;>
      simp [validate_arguments, h1, h2, h3, h4]
  · intro env a hargv hfs hval
    simp [mainRun, hargv, hfs, hval]

theorem claim_C4_validate_iff_witness :
    (validate_arguments ⟨fun _ => true, fun _ => true⟩ "q.sql" "data" "log.txt").1 = true
    ∧ (validate_arguments ⟨fun _ => false, fun _ => false⟩ "q.sql" "data" "log.txt").2.length = 1
    ∧ (mainRun ⟨["prog", "q.sql", "data", "log.txt"], ⟨fun _ => false, fun _ => false⟩,
        [], none, fun _ => none, true, false, true⟩).exitCode = 1 := by
  refine ⟨?_, ?_, ?_⟩
  · exact (claim_C4_validate_iff ⟨fun _ => true, fun _ => true⟩ "q.sql" "data" "log.txt").1.mpr
      ⟨rfl, by decide, rfl, rfl⟩
  · exact (claim_C4_validate_iff ⟨fun _ => false, fun _ => false⟩ "q.sql" "data" "log.txt").2.1
      (by decide)
  · exact (claim_C4_validate_iff ⟨fun _ => false, fun _ => false⟩ "q.sql" "data" "log.txt").2.2
      ⟨["prog", "q.sql", "data", "log.txt"], ⟨fun _ => false, fun _ => false⟩,
        [], none, fun _ => none, true, false, true⟩ "prog" rfl rfl (by decide)

/-- C7: Reading the query file yields no query text exactly when the
file cannot be read or its content, after trimming surrounding
whitespace, is empty; on success it returns the trimmed query text; and
the orchestrator exits with status 1 on the failure case. -/
theorem claim_C7_read_sql_file (content : Option String) :
    ((read_sql_file content = none) ↔
        (content = none ∨ ∃ s, content = some s ∧ pyStrip s = ""))
    ∧ (∀ s, content = some s → pyStrip s ≠ "" →
        read_sql_file content = some (pyStrip s))
    ∧ (∀ (env : Env) (a qp dp lp : String), env.argv = [a, qp, dp, lp] →
        (validate_arguments env.fs qp dp lp).1 = true →
        env.connectOk = true → env.unexpectedFault = false →
        (load_csv_files env.dataFiles).tables ≠ [] →
        env.sqlContent = content → read_sql_file content = none →
        (mainRun env).exitCode = 1) := by
  refine ⟨?_, ?_, ?_⟩
  · cases content with
    | none => simp [read_sql_file]
    | some s =>
      by_cases h : pyStrip s = "" <;> simp [read_sql_file, h]
  · intro s hc hne
    subst hc
    simp [read_sql_file, hne]
  · intro env a qp dp lp hargv hval hconn hunex hld hcontent hnone
    rw [mainRun_eq env a qp dp lp hargv hval,
      tryBody_normal env qp hconn hunex hld]
    rw [hcontent, hnone]
    rfl

theorem claim_C7_read_sql_file_witness :
    read_sql_file (some "   ") = none
    ∧ read_sql_file (some " SELECT 1 ") = some (pyStrip " SELECT 1 ")
    ∧ (mainRun ⟨["prog", "q.sql", "data", "log.txt"], ⟨fun _ => true, fun _ => true⟩,
        [⟨"t.csv", some ⟨["c"], [["1"]]⟩⟩], some "   ", fun _ => none,
        true, false, true⟩).exitCode = 1 := by
  refine ⟨?_, ?_, ?_⟩
  · exact (claim_C7_read_sql_file (some "   ")).1.mpr
      (Or.inr ⟨"   ", rfl, by decide⟩)
  · exact (claim_C7_read_sql_file (some " SELECT 1 ")).2.1 " SELECT 1 " rfl (by decide)
  · exact (claim_C7_read_sql_file (some "   ")).2.2
      ⟨["prog", "q.sql", "data", "log.txt"], ⟨fun _ => true, fun _ => true⟩,
        [⟨"t.csv", some ⟨["c"], [["1"]]⟩⟩], some "   ", fun _ => none, true, false, true⟩
      "prog" "q.sql" "data" "log.txt" rfl (by decide) rfl rfl (by decide) rfl (by decide)

/-- C3: For every query whose execution raises an engine fault, the
fault is caught and reported as failure (a failure value, not an
unhandled fault), the process exits with status 1, and no result file
is written or overwritten — persistence is only attempted after a
successful execution.  The stage flags confirm execution was reached. -/
theorem claim_C3_execution_fault (env : Env) (a qp dp lp q : String)
    (hargv : env.argv = [a, qp, dp, lp])
    (hval : (validate_arguments env.fs qp dp lp).1 = true)
    (hconn : env.connectOk = true) (hunex : env.unexpectedFault = false)
    (hld : (load_csv_files env.dataFiles).tables ≠ [])
    (hread : read_sql_file env.sqlContent = some q)
    (heng : env.engine q = none) :
    execute_sql_query env.engine q = none
    ∧ (mainRun env).exitCode = 1
    ∧ (mainRun env).wroteResult = false
    ∧ (mainRun env).queryExecuted = true := by
  have hmain : mainRun env = finalizeConn ⟨1, false, true, true, true⟩ := by
    rw [mainRun_eq env a qp dp lp hargv hval,
      tryBody_normal env qp hconn hunex hld]
    rw [hread]
    simp [heng]
  refine ⟨heng, ?_, ?_, ?_⟩ <;> rw [hmain] <;> rfl

theorem claim_C3_execution_fault_witness :
    (mainRun ⟨["prog", "q.sql", "data", "log.txt"], ⟨fun _ => true, fun _ => true⟩,
        [⟨"t.csv", some ⟨["c"], [["1"]]⟩⟩], some "SELECT 1", fun _ => none,
        true, false, true⟩).exitCode = 1
    ∧ (mainRun ⟨["prog", "q.sql", "data", "log.txt"], ⟨fun _ => true, fun _ => true⟩,
        [⟨"t.csv", some ⟨["c"], [["1"]]⟩⟩], some "SELECT 1", fun _ => none,
        true, false, true⟩).wroteResult = false := by
  have h := claim_C3_execution_fault
    ⟨["prog", "q.sql", "data", "log.txt"], ⟨fun _ => true, fun _ => true⟩,
      [⟨"t.csv", some ⟨["c"], [["1"]]⟩⟩], some "SELECT 1", fun _ => none,
      true, false, true⟩
    "prog" "q.sql" "data" "log.txt" "SELECT 1"
    rfl (by decide) rfl rfl (by decide) (by decide) rfl
  exact ⟨h.2.1, h.2.2.1⟩

/-- C6: For every data folder containing zero files whose names end in
the tabular suffix, the loader logs its warning and returns an empty
collection, the orchestrator treats this as fatal, the process exits
with status 1, and no result file is produced. -/
theorem claim_C6_zero_files_fatal (env : Env) (a qp dp lp : String)
    (hargv : env.argv = [a, qp, dp, lp])
    (hval : (validate_arguments env.fs qp dp lp).1 = true)
    (hconn : env.connectOk = true) (hunex : env.unexpectedFault = false)
    (hzero : env.dataFiles.filter matchesCsv = []) :
    (load_csv_files env.dataFiles).tables = []
    ∧ (load_csv_files env.dataFiles).warnedNoFiles = true
    ∧ (mainRun env).exitCode = 1
    ∧ (mainRun env).wroteResult = false := by
  have hload : load_csv_files env.dataFiles = ⟨[], emptyCatalog, true⟩ := by
    unfold load_csv_files
    rw [if_pos hzero]
  have hmain : mainRun env = finalizeConn ⟨1, false, true, false, false⟩ := by
    rw [mainRun_eq env a qp dp lp hargv hval]
    have htb : tryBody env qp = ⟨1, false, true, false, false⟩ := by
      simp [tryBody, hconn, hunex, hload]
    rw [htb]
  refine ⟨by rw [hload], by rw [hload], ?_, ?_⟩ <;> rw [hmain] <;> rfl

theorem claim_C6_zero_files_fatal_witness :
    (load_csv_files [⟨"readme.txt", (none : Option Df)⟩]).tables = []
    ∧ (mainRun ⟨["prog", "q.sql", "data", "log.txt"], ⟨fun _ => true, fun _ => true⟩,
        [⟨"readme.txt", none⟩], some "SELECT 1", fun _ => none,
        true, false, true⟩).exitCode = 1 := by
  have h := claim_C6_zero_files_fatal
    ⟨["prog", "q.sql", "data", "log.txt"], ⟨fun _ => true, fun _ => true⟩,
      [⟨"readme.txt", none⟩], some "SELECT 1", fun _ => none, true, false, true⟩
    "prog" "q.sql" "data" "log.txt" rfl (by decide) rfl rfl (by decide)
  exact ⟨h.1, h.2.2.1⟩

/-- C2: For every data folder whose listing has N files matching the
tabular suffix (case-insensitively) of which M < N fail to load, the
loader skips each failing file, continues, and returns exactly the
N − M successfully loaded table names (in listing order); the run then
proceeds past the load stage towards query execution. -/
theorem claim_C2_partial_load_tolerance (files : List CsvFile)
    (hM : ((files.filter matchesCsv).filter (fun f => f.parse.isNone)).length <
      (files.filter matchesCsv).length) :
    (load_csv_files files).tables =
      ((files.filter matchesCsv).filter (fun f => f.parse.isSome)).map
        (fun f => tableName f.name)
    ∧ (load_csv_files files).tables.length =
        (files.filter matchesCsv).length -
          ((files.filter matchesCsv).filter (fun f => f.parse.isNone)).length
    ∧ (∀ (env : Env) (a qp dp lp : String), env.argv = [a, qp, dp, lp] →
        (validate_arguments env.fs qp dp lp).1 = true →
        env.connectOk = true → env.unexpectedFault = false →
        env.dataFiles = files →
        (mainRun env).proceedToQuery = true) := by
  have hne : files.filter matchesCsv ≠ [] := by
    intro h
    rw [h] at hM
    simp at hM
  have htab := load_csv_files_tables files hne
  have hcount := length_filter_parse (files.filter matchesCsv)
  have hlen : (load_csv_files files).tables.length =
      (files.filter matchesCsv).length -
        ((files.filter matchesCsv).filter (fun f => f.parse.isNone)).length := by
    rw [htab, List.length_map]
    omega
  refine ⟨htab, hlen, ?_⟩
  intro env a qp dp lp hargv hval hconn hunex hdf
  have hpos : 0 < (load_csv_files files).tables.length := by
    rw [hlen]
    omega
  have hne2 : (load_csv_files env.dataFiles).tables ≠ [] := by
    rw [hdf]
    exact List.ne_nil_of_length_pos hpos
  rw [mainRun_eq env a qp dp lp hargv hval,
    tryBody_normal env qp hconn hunex hne2]
  cases hr : read_sql_file env.sqlContent with
  | none => simp [hr, finalizeConn]
  | some q =>
    cases he : env.engine q with
    | none => simp [hr, he, finalizeConn]
    | some df =>
      cases hs : env.saveOk with
      | true => simp [hr, he, hs, save_results_to_csv, finalizeConn]
      | false => simp [hr, he, hs, save_results_to_csv, finalizeConn]

theorem claim_C2_partial_load_tolerance_witness :
    (load_csv_files [⟨"t.csv", some ⟨["c"], [["1"]]⟩⟩, ⟨"bad.csv", (none : Option Df)⟩]).tables
      = ["t"]
    ∧ (mainRun ⟨["prog", "q.sql", "data", "log.txt"], ⟨fun _ => true, fun _ => true⟩,
        [⟨"t.csv", some ⟨["c"], [["1"]]⟩⟩, ⟨"bad.csv", none⟩], some "SELECT 1",
        fun _ => some ⟨["c"], [["1"]]⟩, true, false, true⟩).proceedToQuery = true := by
  have h := claim_C2_partial_load_tolerance
    [⟨"t.csv", some ⟨["c"], [["1"]]⟩⟩, ⟨"bad.csv", none⟩] (by decide)
  refine ⟨?_, ?_⟩
  · rw [h.1]
    decide
  · exact h.2.2
      ⟨["prog", "q.sql", "data", "log.txt"], ⟨fun _ => true, fun _ => true⟩,
        [⟨"t.csv", some ⟨["c"], [["1"]]⟩⟩, ⟨"bad.csv", none⟩], some "SELECT 1",
        fun _ => some ⟨["c"], [["1"]]⟩, true, false, true⟩
      "prog" "q.sql" "data" "log.txt" rfl (by decide) rfl rfl rfl

/-- C5: For every result dataset, the preview logs at most the
configured row cap of rows (and what it logs is the first rows of the
result); when the result has more rows than the cap it logs the count
of omitted rows (result size minus cap); and when the result has zero
rows it logs an explicit no-rows notice and no row content.  The cap
`main` passes is `previewDefaultRows = 10`. -/
theorem claim_C5_preview_bounds (result_df : Df) (cap : Nat) :
    (∀ rs, PreviewEntry.rows rs ∈ log_results_preview result_df cap →
        rs.length ≤ cap ∧ rs = result_df.rows.take cap)
    ∧ (cap < result_df.rows.length →
        PreviewEntry.omitted (result_df.rows.length - cap) ∈
          log_results_preview result_df cap)
    ∧ (result_df.rows.length = 0 →
        log_results_preview result_df cap =
          [PreviewEntry.header 0, PreviewEntry.noRows]) := by
  refine ⟨?_, ?_, ?_⟩
  · intro rs hrs
    by_cases h0 : result_df.rows.length = 0
    · simp [log_results_preview, h0] at hrs
    · by_cases h1 : cap < result_df.rows.length <;>
        simp [log_results_preview, h0, h1] at hrs
      all_goals
        subst hrs
        refine ⟨?_, rfl⟩
        rw [List.length_take]
        exact Nat.min_le_left _ _
  · intro h1
    have h0 : ¬ result_df.rows.length = 0 := by omega
    simp [log_results_preview, h0, h1]
  · intro h0
    simp [log_results_preview, h0]

theorem claim_C5_preview_bounds_witness :
    ((([["1"], ["2"]] : List (List String)).length ≤ 2
        ∧ ([["1"], ["2"]] : List (List String)) =
            (Df.mk ["c"] [["1"], ["2"], ["3"]]).rows.take 2)
    ∧ PreviewEntry.omitted 1 ∈ log_results_preview ⟨["c"], [["1"], ["2"], ["3"]]⟩ 2
    ∧ log_results_preview ⟨["c"], []⟩ 2 = [PreviewEntry.header 0, PreviewEntry.noRows]) := by
  refine ⟨?_, ?_, ?_⟩
  · exact (claim_C5_preview_bounds ⟨["c"], [["1"], ["2"], ["3"]]⟩ 2).1
      [["1"], ["2"]] (by decide)
  · exact (claim_C5_preview_bounds ⟨["c"], [["1"], ["2"], ["3"]]⟩ 2).2.1 (by decide)
  · exact (claim_C5_preview_bounds ⟨["c"], []⟩ 2).2.2 (by decide)

/-- C10: Table names strip only the final extension, so the files t.csv
and t.CSV (which both match the loader's case-insensitive suffix
filter) derive the identical table name t; the loader registers both
under that one name, the later registration replacing the earlier in
the catalog, and the returned collection of loaded table names is a
list containing that name twice. -/
theorem claim_C10_duplicate_table_names (df1 df2 : Df) :
    tableName "t.csv" = "t"
    ∧ tableName "t.CSV" = "t"
    ∧ (load_csv_files [⟨"t.csv", some df1⟩, ⟨"t.CSV", some df2⟩]).tables = ["t", "t"]
    ∧ (load_csv_files [⟨"t.csv", some df1⟩, ⟨"t.CSV", some df2⟩]).tables.count "t" = 2
    ∧ (load_csv_files [⟨"t.csv", some df1⟩, ⟨"t.CSV", some df2⟩]).catalog "t" = some df2 := by
  have ht1 : tableName "t.csv" = "t" := by decide
  have ht2 : tableName "t.CSV" = "t" := by decide
  have hm1 : matchesCsv ⟨"t.csv", some df1⟩ = true := by
    simp only [matchesCsv]
    decide
  have hm2 : matchesCsv ⟨"t.CSV", some df2⟩ = true := by
    simp only [matchesCsv]
    decide
  have hload : load_csv_files [⟨"t.csv", some df1⟩, ⟨"t.CSV", some df2⟩] =
      ⟨["t", "t"], register "t" df2 (register "t" df1 emptyCatalog), false⟩ := by
    unfold load_csv_files
    rw [List.filter_cons_of_pos hm1, List.filter_cons_of_pos hm2, List.filter_nil]
    rw [if_neg (by simp)]
    show LoadOut.mk
      (List.foldl loadStep ([], emptyCatalog) [⟨"t.csv", some df1⟩, ⟨"t.CSV", some df2⟩]).1
      (List.foldl loadStep ([], emptyCatalog) [⟨"t.csv", some df1⟩, ⟨"t.CSV", some df2⟩]).2
      false = _
    simp [loadStep, ht1, ht2]
  refine ⟨ht1, ht2, by rw [hload], by rw [hload]; rfl, by rw [hload]; simp [register]⟩

theorem take_length_append (l₁ l₂ : List Char) : (l₁ ++ l₂).take l₁.length = l₁ := by
  induction l₁ with
  | nil => simp
  | cons a t ih => simp [ih]

theorem drop_length_append (l₁ l₂ : List Char) : (l₁ ++ l₂).drop l₁.length = l₂ := by
  induction l₁ with
  | nil => simp
  | cons a t ih => simp [ih]

/-- C1: Output path derivation is a pure function of the query file
path string.  First part: every path of the form
queries/ ++ rel ++ / ++ name ++ .sql (a file name stem with no
separator and at least one non-dot character) derives
outputs/ ++ rel ++ / ++ name ++ _output.csv.  Second part: every path
not starting with the queries/ root derives
outputs/ ++ stem ++ _output.csv where stem is its basename without the
final extension. -/
theorem claim_C1_output_path_derivation :
    (∀ rel name : String,
        (∀ c ∈ name.data, (c != '/') = true) →
        name.data.any (fun c => c != '.') = true →
        save_output_path ("queries/" ++ rel ++ "/" ++ name ++ ".sql") =
          "outputs/" ++ rel ++ "/" ++ name ++ "_output.csv")
    ∧ (∀ (p name : String) (restE : List Char),
        startsWithList p.data ("queries/").data = false →
        baseNameList p.data = name.data ++ '.' :: restE →
        (∀ c ∈ restE, (c != '.') = true) →
        name.data.any (fun c => c != '.') = true →
        save_output_path p = "outputs/" ++ name ++ "_output.csv") := by
  constructor
  · intro rel name hsep hdot
    have hdata : ("queries/" ++ rel ++ "/" ++ name ++ ".sql").data =
        ("queries/").data ++ (rel.data ++ '/' :: (name.data ++ '.' :: ['s', 'q', 'l'])) := by
      simp only [strData_append, List.append_assoc]
      rfl
    have hstart : startsWithList ("queries/" ++ rel ++ "/" ++ name ++ ".sql").data
        ("queries/").data = true := by
      rw [hdata]
      unfold startsWithList
      rw [take_length_append]
      simp
    have hdrop : ("queries/" ++ rel ++ "/" ++ name ++ ".sql").data.drop 8 =
        rel.data ++ '/' :: (name.data ++ '.' :: ['s', 'q', 'l']) := by
      rw [hdata]
      have h8 : ("queries/").data.length = 8 := rfl
      rw [← h8, drop_length_append]
    have hsep' : ∀ c ∈ name.data ++ '.' :: ['s', 'q', 'l'], (c != '/') = true := by
      intro c hc
      rcases List.mem_append.mp hc with h | h
      · exact hsep c h
      · simp at h
        rcases h with rfl | rfl | rfl | rfl <;> decide
    have hsplit : splitextRootL (rel.data ++ '/' :: (name.data ++ '.' :: ['s', 'q', 'l'])) =
        rel.data ++ '/' :: name.data := by
      unfold splitextRootL
      rw [baseNameList_append _ _ hsep', dirPartList_append _ _ hsep']
      rw [extSplitRoot_append name.data ['s', 'q', 'l']
        ((any_ne_dot_iff_dropWhile name.data).mp hdot)
        (by intro c hc; simp at hc; rcases hc with rfl | rfl | rfl <;> decide)]
      simp
    have hres : save_output_path ("queries/" ++ rel ++ "/" ++ name ++ ".sql") =
        ⟨("outputs/").data ++ (rel.data ++ '/' :: name.data) ++ ("_output.csv").data⟩ := by
      unfold save_output_path
      rw [if_pos hstart, hdrop, hsplit]
    rw [hres]
    apply strDataEq
    simp only [strData_append, List.append_assoc, List.cons_append]
    rfl
  · intro p name restE hns hbase hrest hdot
    have hb := mem_baseNameList_ne_sep p.data
    rw [hbase] at hb
    have hsplit2 : splitextRootL (baseNameList p.data) = name.data := by
      rw [hbase]
      unfold splitextRootL
      rw [baseNameList_no_sep _ hb, dirPartList_no_sep _ hb]
      rw [extSplitRoot_append name.data restE
        ((any_ne_dot_iff_dropWhile name.data).mp hdot) hrest]
      simp
    have hres : save_output_path p =
        ⟨("outputs/").data ++ name.data ++ ("_output.csv").data⟩ := by
      unfold save_output_path
      rw [if_neg (by simp [hns]), hsplit2]
    rw [hres]
    apply strDataEq
    simp only [strData_append, List.append_assoc, List.cons_append]

theorem claim_C1_output_path_derivation_witness :
    save_output_path ("queries/" ++ "sample_schema" ++ "/" ++ "cube_example" ++ ".sql") =
      "outputs/" ++ "sample_schema" ++ "/" ++ "cube_example" ++ "_output.csv"
    ∧ save_output_path "elsewhere/ad_hoc.sql" = "outputs/" ++ "ad_hoc" ++ "_output.csv" :=
  ⟨claim_C1_output_path_derivation.1 "sample_schema" "cube_example"
      (by decide) (by decide),
    claim_C1_output_path_derivation.2 "elsewhere/ad_hoc.sql" "ad_hoc" ['s', 'q', 'l']
      (by decide) (by decide) (by decide) (by decide)⟩
